import Mathlib

/-!
# Verification of the holly-backend TTS pipeline

Shallow embedding of the Node/Express text-to-speech proxy:

* `routes/tts.js` — the proxy handler (text resolution, json-only mode,
  truncation cap, speed clamping, upstream call with one timeout retry,
  response framing);
* `routes/llm.js` (first variant) — the early streaming handler that
  commits headers with `res.writeHead` at request start;
* the validating handler variants (NDJSON transcript accumulation, MP3
  signature sniffing on the first worker chunk, single-session abort,
  worker close/error handling).

JavaScript strings are modelled as Lean `String`; `Buffer` byte chunks as
`List Nat`; the handlers are modelled as pure functions from the request
plus oracles for the external services (LLM outcome, upstream attempt
outcomes, worker stdout/close events) to a trace of response actions.
-/

/-- JS truthiness of an optional string: `undefined` and the empty string
are falsy, every other string is truthy. -/
def jsTruthy : Option String → Bool
  | none => false
  | some s => !(s == "")

/-- Collapse a JS optional string to its truthy value: `some s` for a
non-empty string, `none` for `undefined` / `""`. -/
def jsStr : Option String → Option String
  | none => none
  | some s => if s == "" then none else some s

/-! ## TranscriptAccumulator (routes/llm.js lines 69-86, part_004 lines 71-85)

The handler iterates over newline-delimited lines of the LLM response body;
each line is `JSON.parse`d inside a `try`; on parse failure the line is
skipped with `continue`; if the parsed object has a truthy `response` field
it is appended to `textBuffer`. -/

/-- One newline-delimited line of the LLM stream: either it fails
`JSON.parse` (`malformed`) or it parses to an object whose optional
`response` field carries the text delta. -/
inductive NdLine
  | malformed
  | obj (response : Option String)
  deriving DecidableEq, Repr

/-- The `response` field of a line that parses as JSON. -/
def responseOf : NdLine → Option String
  | .obj r => r
  | .malformed => none

/-- `textBuffer` update for one line, translated from the loop body:
`try { const parsed = JSON.parse(line); if (parsed.response)
{ textBuffer += parsed.response; } } catch { continue; }`. -/
def accumLine (buf : String) : NdLine → String
  | .obj (some r) => if r == "" then buf else buf ++ r
  | .obj none => buf
  | .malformed => buf

/-- The transcript accumulated from the whole line sequence. -/
def accumulate (lines : List NdLine) : String :=
  lines.foldl accumLine ""

/-- Concatenation of a list of strings in order. -/
def concatAll (l : List String) : String :=
  l.foldl (· ++ ·) ""

/-! ## Speed normalization (routes/tts.js lines 11-16) -/

/-- A JS number as produced by `Number(raw)`: NaN, an infinity, or a
finite value (modelled as a rational). -/
inductive JsNum
  | nan
  | inf
  | negInf
  | fin (q : ℚ)
  deriving DecidableEq

/-- The raw `speed` parameter: `undefined`, `null`, the empty string, or
any other JS value together with its `Number(...)` conversion. -/
inductive SpeedRaw
  | undef
  | nullv
  | emptyStr
  | val (n : JsNum)
  deriving DecidableEq

/-- `normalizeSpeed` from routes/tts.js: `undefined`/`null`/`""` are
returned as unset; `Number.isFinite(n)` rejects NaN and both infinities,
so any non-finite conversion is unset; a finite number is clamped to
`Math.min(2.0, Math.max(0.5, n))`. -/
def normalizeSpeed : SpeedRaw → Option ℚ
  | .undef => none
  | .nullv => none
  | .emptyStr => none
  | .val (.fin q) => some (min 2 (max (1/2) q))
  | .val .nan => none
  | .val .inf => none
  | .val .negInf => none

/-- `requestedSpeed = normalizeSpeed(req.body?.speed) ??
normalizeSpeed(process.env.TTS_SPEED)`: the env default applies when the
request value normalizes to unset. -/
def requestedSpeed (raw envRaw : SpeedRaw) : Option ℚ :=
  match normalizeSpeed raw with
  | some q => some q
  | none => normalizeSpeed envRaw

/-! ## Truncation cap (routes/tts.js lines 88-93) -/

/-- `if (spoken.length > TTS_TEXT_MAX_CHARS) spoken =
spoken.slice(0, TTS_TEXT_MAX_CHARS) + '…'`. -/
def capText (cap : Nat) (s : String) : String :=
  if cap < s.length then ⟨s.data.take cap⟩ ++ "…" else s

/-! ### Basic string lemmas -/

theorem concatAll_cons (x : String) (l : List String) :
    concatAll (x :: l) = x ++ concatAll l := by
  have h : ∀ (l : List String) (b : String), l.foldl (· ++ ·) b = b ++ concatAll l := by
    intro l
    induction l with
    | nil => intro b; simp [concatAll, String.append_empty]
    | cons y ys ih =>
      intro b
      show ys.foldl (· ++ ·) (b ++ y) = b ++ concatAll (y :: ys)
      rw [ih (b ++ y)]
      show b ++ y ++ concatAll ys = b ++ (y :: ys).foldl (· ++ ·) ""
      rw [String.append_assoc]
      apply congrArg (b ++ ·)
      show y ++ concatAll ys = ys.foldl (· ++ ·) ("" ++ y)
      rw [ih ("" ++ y), String.empty_append]
  exact h l x

theorem accumulate_eq_concat_aux (lines : List NdLine) :
    ∀ buf : String, lines.foldl accumLine buf = buf ++ concatAll (lines.filterMap responseOf) := by
  induction lines with
  | nil => intro buf; simp [concatAll, String.append_empty]
  | cons l ls ih =>
    intro buf
    cases l with
    | malformed =>
      show ls.foldl accumLine buf = buf ++ concatAll ((NdLine.malformed :: ls).filterMap responseOf)
      rw [ih buf]
      simp [responseOf]
    | obj r =>
      cases r with
      | none =>
        show ls.foldl accumLine buf = buf ++ concatAll ((NdLine.obj none :: ls).filterMap responseOf)
        rw [ih buf]
        simp [responseOf]
      | some s =>
        by_cases hs : s = ""
        · subst hs
          show ls.foldl accumLine (accumLine buf (.obj (some ""))) =
            buf ++ concatAll ((NdLine.obj (some "") :: ls).filterMap responseOf)
          simp only [accumLine]
          rw [if_pos (by rfl)]
          rw [ih buf]
          simp only [List.filterMap_cons, responseOf]
          rw [concatAll_cons, String.empty_append]
        · show ls.foldl accumLine (accumLine buf (.obj (some s))) =
            buf ++ concatAll ((NdLine.obj (some s) :: ls).filterMap responseOf)
          simp only [accumLine]
          rw [if_neg (by simpa using hs)]
          rw [ih (buf ++ s)]
          simp only [List.filterMap_cons, responseOf]
          rw [concatAll_cons, String.append_assoc]

/-! ## FormatSniffer (part_004 lines 269-271 and 98-103, part_003 lines 100-102)

`isMp3Like(buf) = buf.slice(0,3).equals(Buffer.from('ID3')) ||
(buf[0] === 0xff && (buf[1] & 0xe0) === 0xe0)`.  Byte chunks are lists of
byte values; a chunk shorter than the tested prefix fails both disjuncts,
exactly as the JS comparisons do on out-of-range `Buffer` indices. -/

def isMp3Like (b : List Nat) : Bool :=
  (b.take 3 == [0x49, 0x44, 0x33]) ||
  (match b with
   | b0 :: b1 :: _ => b0 == 0xff && (b1 &&& 0xe0) == 0xe0
   | _ => false)

/-! ## Worker-supervising handlers

Response/worker actions performed by the handlers built on a spawned
`tts.py` subprocess. `commitAudio` is the commit of the audio response
headers (status 200, `Content-Type: audio/mpeg`, and the streaming
headers); `json s tag` is a `res.status(s).json(...)` structured error
body (which ends the response); `okJson` is the 200 transcript body;
`endBuf n` is the buffered-mode `res.end(Buffer.concat(chunks))` of `n`
audio bytes. -/

inductive ErrTag
  | validation
  | upstreamLlm
  | formatErr
  | synthErr
  | procErr
  | speechFail
  deriving DecidableEq, Repr

inductive Act
  | abortCall
  | spawn
  | validate (ok : Bool)
  | commitAudio
  | write (n : Nat)
  | json (status : Nat) (tag : ErrTag)
  | okJson (resp : String)
  | trailer
  | endRes
  | endBuf (n : Nat)
  | kill
  deriving DecidableEq, Repr

/-- Mutable handler state shared by the worker callbacks: the `first`
chunk flag, the `headersSent` flag, the `audioBytes` counter, and the
total length of the buffered `chunks` (non-streaming mode). -/
structure P4State where
  first : Bool
  headersSent : Bool
  audioBytes : Nat
  bufLen : Nat
  deriving DecidableEq, Repr

/-- Initial callback state of a freshly spawned worker. -/
def p4Init : P4State := ⟨true, false, 0, 0⟩

/-- Events delivered to the worker callbacks: a stdout `data` chunk, the
process `close` event with its exit code (`none` models exit by signal,
i.e. a `null` code in Node), or the process `error` event. -/
inductive WEv
  | data (c : List Nat)
  | close (code : Option Int)
  | errEv
  deriving DecidableEq, Repr

/-! ### part_004 validating handler, second variant (lines 203-361) -/

/-- Tail of the `python.stdout.on('data')` callback: count the chunk into
`audioBytes` and either `res.write` it (streaming) or push it onto
`chunks` (buffered). -/
def forwardChunk (stream : Bool) (s : P4State) (c : List Nat) (pre : List Act) :
    P4State × List Act :=
  if stream then
    ({ s with audioBytes := s.audioBytes + c.length }, pre ++ [.write c.length])
  else
    ({ s with audioBytes := s.audioBytes + c.length, bufLen := s.bufLen + c.length }, pre)

/-- `python.stdout.on('data')` of part_004 lines 276-309: on the first
chunk, validate with `isMp3Like`; if invalid, kill the worker and (headers
not yet sent) reply with the 500 `FormatError` JSON, forwarding nothing;
if valid, commit the audio headers, then forward. Later chunks are
forwarded unconditionally. -/
def p4v2Data (stream : Bool) (s : P4State) (c : List Nat) : P4State × List Act :=
  if s.first then
    if !(isMp3Like c) then
      if !s.headersSent then
        ({ s with first := false, headersSent := true },
         [.validate false, .kill, .json 500 .formatErr])
      else
        ({ s with first := false }, [.validate false, .kill])
    else
      forwardChunk stream { s with first := false, headersSent := true } c
        [.validate true, .commitAudio]
  else
    forwardChunk stream s c []

/-- `python.on('close')` of part_004 lines 317-336: success iff the exit
code is 0 and `audioBytes > 0`; otherwise a 500 `SynthesisError` JSON if
headers were never sent, else a bare `res.end()`. On success, streaming
mode appends the `X-Transcript` trailer; buffered mode ends with the
concatenated audio buffer. -/
def p4v2Close (stream : Bool) (s : P4State) (code : Option Int) : List Act :=
  if code == some 0 && s.audioBytes != 0 then
    if stream then [.trailer, .endRes] else [.endBuf s.bufLen]
  else
    if !s.headersSent then [.json 500 .synthErr] else [.endRes]

/-- `python.on('error')` of part_004 lines 338-343. -/
def p4v2ErrAct (s : P4State) : List Act :=
  if !s.headersSent then [.json 500 .procErr] else [.endRes]

/-- Run the part_004 (second variant) worker callbacks over an event
sequence, collecting the final state and the action trace. -/
def p4v2Steps (stream : Bool) (s : P4State) : List WEv → P4State × List Act
  | [] => (s, [])
  | .data c :: rest =>
    let r1 := p4v2Data stream s c
    let r2 := p4v2Steps stream r1.1 rest
    (r2.1, r1.2 ++ r2.2)
  | .close code :: rest =>
    let r2 := p4v2Steps stream s rest
    (r2.1, p4v2Close stream s code ++ r2.2)
  | .errEv :: rest =>
    let r2 := p4v2Steps stream s rest
    (r2.1, p4v2ErrAct s ++ r2.2)

/-- Outcome of the non-streaming Ollama fetch: a network / non-OK-status
failure (both reach the catch and yield the 502), or a response whose
parsed body optionally has a string `response` field. -/
inductive LlmOut
  | fail
  | okResp (r : Option String)
  deriving DecidableEq, Repr

/-- The part_004 second-variant request handler (lines 203-361): prompt
validation with `trim`, abort of the current session, the Ollama fetch,
the json-only early return, then worker spawn and callback processing. -/
def p4v2Handler (slot : Bool) (json stream : Bool) (prompt : Option String)
    (llm : LlmOut) (events : List WEv) : List Act :=
  match prompt with
  | none => [.json 400 .validation]
  | some p =>
    if p.trim == "" then [.json 400 .validation]
    else
      (if slot then [.abortCall] else []) ++
      match llm with
      | .fail => [.json 502 .upstreamLlm]
      | .okResp r =>
        let text := r.getD ""
        if json then [.okJson text]
        else .spawn :: (p4v2Steps stream p4Init events).2

/-! ### part_004 validating handler, first variant (lines 13-189) -/

/-- `python.stdout.on('data')` of part_004 lines 105-126: guarded by
`headersSent` (no separate first-chunk flag); invalid first bytes kill
the worker and return without responding (the close handler reports the
error); valid first bytes commit the audio headers; every chunk past the
guard is written through (this variant always streams). -/
def p4v1Data (s : P4State) (c : List Nat) : P4State × List Act :=
  if !s.headersSent then
    if !(isMp3Like c) then (s, [.validate false, .kill])
    else
      ({ s with headersSent := true, audioBytes := s.audioBytes + c.length },
       [.validate true, .commitAudio, .write c.length])
  else
    ({ s with audioBytes := s.audioBytes + c.length }, [.write c.length])

/-- `python.on('close')` of part_004 lines 134-153: nothing if the client
already disconnected; error (500 JSON / bare end) unless headers were
sent, bytes were produced and the exit code is 0; otherwise trailer and
end. -/
def p4v1Close (closed : Bool) (s : P4State) (code : Option Int) : List Act :=
  if closed then []
  else if !s.headersSent || s.audioBytes == 0 || code != some 0 then
    if !s.headersSent then [.json 500 .synthErr] else [.endRes]
  else [.trailer, .endRes]

/-- `python.on('error')` of part_004 lines 155-165. -/
def p4v1ErrAct (closed : Bool) (s : P4State) : List Act :=
  if closed then []
  else if s.headersSent then [.endRes] else [.json 500 .procErr]

/-- Run the part_004 first-variant worker callbacks (client connected). -/
def p4v1Steps (s : P4State) : List WEv → P4State × List Act
  | [] => (s, [])
  | .data c :: rest =>
    let r1 := p4v1Data s c
    let r2 := p4v1Steps r1.1 rest
    (r2.1, r1.2 ++ r2.2)
  | .close code :: rest =>
    let r2 := p4v1Steps s rest
    (r2.1, p4v1Close false s code ++ r2.2)
  | .errEv :: rest =>
    let r2 := p4v1Steps s rest
    (r2.1, p4v1ErrAct false s ++ r2.2)

/-- The part_004 first-variant request handler (lines 13-189): prompt
check, synchronous `currentSession.abort()` of any occupant of the
single-session slot, the streaming Ollama fetch accumulated with
`accumulate`, the json-only early return, then `spawn` and the worker
callbacks.  The abort of the previous session happens in the synchronous
prologue, strictly before this request ever spawns its own worker. -/
inductive LlmS
  | fail
  | okLines (lines : List NdLine)
  deriving DecidableEq, Repr

def p4v1Handler (slot : Bool) (json : Bool) (prompt : Option String)
    (llm : LlmS) (events : List WEv) : List Act :=
  if !(jsTruthy prompt) then [.json 400 .validation]
  else
    (if slot then [.abortCall] else []) ++
    match llm with
    | .fail => [.json 500 .speechFail]
    | .okLines lines =>
      let text := accumulate lines
      if json then [.okJson text]
      else .spawn :: (p4v1Steps p4Init events).2

/-- Exit code observed by `python.on('close')` for a worker that was
terminated with `python.kill()`: Node reports a `null` code (the process
exited on the SIGTERM signal), never status 0. -/
def killedExitCode : Option Int := none

/-! ### routes/llm.js first variant (lines 13-127)

This handler commits the audio headers with `res.writeHead(200, ...)` at
the top of the request (line 24), before the LLM call, before the worker
is spawned and before any audio chunk exists; it performs no signature
validation at all. -/

/-- Worker callbacks of routes/llm.js lines 90-104: chunks are written
through unvalidated; on close the trailer is always appended (client
connected). -/
def llmV1Run : List WEv → List Act
  | [] => []
  | .data c :: rest => .write c.length :: llmV1Run rest
  | .close _ :: rest => [.trailer, .endRes] ++ llmV1Run rest
  | .errEv :: rest => llmV1Run rest

/-- The routes/llm.js first-variant request handler (lines 13-127). -/
def llmV1Handler (slot : Bool) (prompt : Option String) (llm : LlmS)
    (events : List WEv) : List Act :=
  if !(jsTruthy prompt) then [.json 400 .validation]
  else
    (if slot then [.abortCall] else []) ++
    [.commitAudio] ++
    match llm with
    | .fail => [.endRes]
    | .okLines _ => .spawn :: llmV1Run events

/-! ### Trace predicates -/

/-- `commitGuarded seen t` holds when every `commitAudio` in `t` is
preceded (in `t`, or by `seen` from earlier context) by a successful
`validate true` signature check. -/
def commitGuarded : Bool → List Act → Bool
  | _, [] => true
  | _, .validate true :: rest => commitGuarded true rest
  | seen, .commitAudio :: rest => seen && commitGuarded seen rest
  | seen, _ :: rest => commitGuarded seen rest

/-- Audio bytes actually delivered to the client: `write` actions count
until the response is ended by a JSON body or an explicit end; a buffered
`endBuf n` delivers its `n` bytes and ends the response. -/
def deliveredBytes : List Act → Nat
  | [] => 0
  | .write n :: rest => n + deliveredBytes rest
  | .json _ _ :: _ => 0
  | .okJson _ :: _ => 0
  | .endRes :: _ => 0
  | .endBuf n :: _ => n
  | _ :: rest => deliveredBytes rest

/-! ## routes/tts.js proxy handler (lines 24-217)

This handler resolves the spoken text from `text` / `prompt` (optionally
via one batch Ollama call), honours the json-only mode, caps the text,
then calls the FastAPI synthesis upstream with a timeout and exactly one
retry on timeout, and frames the response (framed stream or buffered). -/

/-- Response of the FastAPI `/speak` upstream once a fetch attempt
resolves: HTTP-ok flag, the optional `x-stream-framing` header, and the
body length. -/
structure UpResp where
  httpOk : Bool
  framing : Option String
  bodyLen : Nat
  deriving DecidableEq, Repr

/-- Outcome of one `callUpstream()` attempt: a resolved response, an
`AbortError` fired by the timeout, or another fetch failure. -/
inductive UpAttempt
  | resp (r : UpResp)
  | abortE
  | failE
  deriving DecidableEq, Repr

/-- Stage tags of the structured JSON error bodies of routes/tts.js. -/
inductive TtsStage
  | ollama
  | validation
  | tts
  | ttsUpstream
  deriving DecidableEq, Repr

/-- Actions of the routes/tts.js handler: the Ollama call, each upstream
synthesis call carrying the exact text (and normalized speed) sent, the
JSON replies, the audio header commit (`octet` when the framed-stream
headers are used), and body delivery (pipe or buffered end). -/
inductive TAct
  | llmCall
  | synthCall (sent : String) (speed : Option ℚ)
  | okJson (resp : String)
  | errJson (status : Nat) (stage : TtsStage)
  | audioCommit (octet : Bool)
  | pipe
  | endBuf (n : Nat)
  deriving DecidableEq, Repr

/-- Result of resolving the spoken text (routes/tts.js lines 46-79). -/
inductive ResolveOut
  | ok (s : String)
  | e400
  | e502
  deriving DecidableEq, Repr

/-- routes/tts.js lines 46-79: `let spoken = text;` then, if `spoken` is
falsy and `prompt` truthy, either one batch Ollama call (`generate`) or
`spoken = prompt`; after the block a falsy `spoken` is the 400. The
generate branch throws (hence 502 with stage `ollama`) on a non-OK
status, an unparsable / non-string body, or empty generated text. -/
def resolveSpoken (text prompt : Option String) (generate : Bool)
    (ollama : LlmOut) : List TAct × ResolveOut :=
  match jsStr text with
  | some t => ([], .ok t)
  | none =>
    match jsStr prompt with
    | none => ([], .e400)
    | some p =>
      if generate then
        match ollama with
        | .okResp (some r) => if r == "" then ([.llmCall], .e502) else ([.llmCall], .ok r)
        | .okResp none => ([.llmCall], .e502)
        | .fail => ([.llmCall], .e502)
      else ([], .ok p)

/-- routes/tts.js lines 159-216: after an upstream attempt resolves, a
non-OK status is the 500 `tts-upstream` JSON; otherwise status 200 is
set, the framed-stream headers are used when `stream` is set and the
upstream sent `x-stream-framing`, and the body is piped (streaming) or
buffered and ended with its length. -/
def afterUpstream (stream : Bool) (r : UpResp) : List TAct :=
  if !r.httpOk then [.errJson 500 .ttsUpstream]
  else
    let octet := stream && r.framing.isSome
    if stream then [.audioCommit octet, .pipe]
    else [.audioCommit octet, .endBuf r.bodyLen]

/-- routes/tts.js lines 123-157: the first `callUpstream()` attempt; on
`AbortError` (timeout) exactly one retry; a second `AbortError` is the
500 `{stage: 'tts', error: 'timeout'}` JSON; any other failure is the
500 `tts-upstream` JSON. -/
def upstreamPhase (stream : Bool) (sent : String) (sp : Option ℚ)
    (a1 a2 : UpAttempt) : List TAct :=
  match a1 with
  | .resp r => .synthCall sent sp :: afterUpstream stream r
  | .failE => [.synthCall sent sp, .errJson 500 .ttsUpstream]
  | .abortE =>
    .synthCall sent sp :: .synthCall sent sp ::
    (match a2 with
     | .resp r => afterUpstream stream r
     | .abortE => [.errJson 500 .tts]
     | .failE => [.errJson 500 .ttsUpstream])

/-- A routes/tts.js request body (the fields the handler reads). -/
structure TtsReq where
  text : Option String
  prompt : Option String
  generate : Bool
  json : Bool
  stream : Bool
  speed : SpeedRaw
  deriving DecidableEq

/-- The routes/tts.js POST handler (lines 24-217): resolve the spoken
text, return the transcript JSON in json-only mode, else cap the text
and run the upstream synthesis phase. `envSpeed` is `process.env.TTS_SPEED`,
`cap` is `TTS_TEXT_MAX_CHARS`, `ollama`/`a1`/`a2` are the outcomes of the
external calls. -/
def ttsHandler (cap : Nat) (req : TtsReq) (envSpeed : SpeedRaw)
    (ollama : LlmOut) (a1 a2 : UpAttempt) : List TAct :=
  let sp := requestedSpeed req.speed envSpeed
  match resolveSpoken req.text req.prompt req.generate ollama with
  | (acts, .e400) => acts ++ [.errJson 400 .validation]
  | (acts, .e502) => acts ++ [.errJson 502 .ollama]
  | (acts, .ok spoken) =>
    if req.json then acts ++ [.okJson spoken]
    else acts ++ upstreamPhase req.stream (capText cap spoken) sp a1 a2

/-- Recognizer for upstream synthesis calls (used to count attempts). -/
def isSynthCall : TAct → Bool
  | .synthCall _ _ => true
  | _ => false

/-- Actions that start (and, in Node, commit the headers of) a response:
a JSON body, an explicit end, or the buffered audio end.  The first such
action in a trace is the response the client receives. -/
def isResponseAct : Act → Bool
  | .json _ _ => true
  | .okJson _ => true
  | .endRes => true
  | .endBuf _ => true
  | _ => false

/-! ## Helper lemmas -/

/-- The action prefix produced by `resolveSpoken` is empty or the single
Ollama call. -/
theorem resolveSpoken_acts (text prompt : Option String) (g : Bool) (o : LlmOut) :
    (resolveSpoken text prompt g o).1 = [] ∨
    (resolveSpoken text prompt g o).1 = [TAct.llmCall] := by
  unfold resolveSpoken
  cases jsStr text with
  | some t => exact Or.inl rfl
  | none =>
    cases jsStr prompt with
    | none => exact Or.inl rfl
    | some p =>
      cases g with
      | false => exact Or.inl rfl
      | true =>
        cases o with
        | fail => exact Or.inr rfl
        | okResp r =>
          cases r with
          | none => exact Or.inr rfl
          | some s =>
            by_cases hs : s == ""
            · simp only [hs]; exact Or.inr rfl
            · simp only [hs]; exact Or.inr rfl

/-- `afterUpstream` performs no synthesis call. -/
theorem synthCall_notin_afterUpstream (stream : Bool) (r : UpResp)
    (s : String) (q : Option ℚ) : TAct.synthCall s q ∉ afterUpstream stream r := by
  unfold afterUpstream
  split
  · simp
  · split <;> simp

/-- Every synthesis call in `upstreamPhase` carries exactly the text and
speed that the phase was entered with. -/
theorem synthCall_in_upstreamPhase (stream : Bool) (sent : String) (sp : Option ℚ)
    (a1 a2 : UpAttempt) (s : String) (q : Option ℚ)
    (h : TAct.synthCall s q ∈ upstreamPhase stream sent sp a1 a2) :
    s = sent ∧ q = sp := by
  unfold upstreamPhase at h
  cases a1 with
  | resp r =>
    rcases List.mem_cons.mp h with h | h
    · exact ⟨by injection h, by injection h⟩
    · exact absurd h (synthCall_notin_afterUpstream stream r s q)
  | failE => simp at h; exact ⟨h.1, h.2⟩
  | abortE =>
    rcases List.mem_cons.mp h with h | h
    · exact ⟨by injection h, by injection h⟩
    rcases List.mem_cons.mp h with h | h
    · exact ⟨by injection h, by injection h⟩
    cases a2 with
    | resp r => exact absurd h (synthCall_notin_afterUpstream stream r s q)
    | abortE => simp at h
    | failE => simp at h

/-! ## Claim theorems -/

/-- Claim C6: for every sequence of newline-delimited fragment lines from
the text-generation stream, the accumulated transcript equals the
concatenation, in arrival order, of the `response` fields of exactly the
lines that parse as JSON, and a malformed line is skipped without
aborting accumulation of the later lines. -/
theorem C6_transcript_accumulation :
    (∀ lines : List NdLine, accumulate lines = concatAll (lines.filterMap responseOf)) ∧
    (∀ pre post : List NdLine,
      accumulate (pre ++ NdLine.malformed :: post) = accumulate (pre ++ post)) := by
  have main : ∀ lines : List NdLine,
      accumulate lines = concatAll (lines.filterMap responseOf) := by
    intro lines
    have h := accumulate_eq_concat_aux lines ""
    rw [accumulate, h, String.empty_append]
  refine ⟨main, fun pre post => ?_⟩
  rw [main, main]
  simp [responseOf]

/-- Claim C9: a finite numeric `speed` is clamped into `[0.5, 2.0]`
(`3.5` maps to `2.0`), and a non-numeric (NaN or infinite), missing,
null, or empty value is treated as unset so the env default applies. -/
theorem C9_speed_normalization :
    (∀ q : ℚ, normalizeSpeed (.val (.fin q)) = some (min 2 (max (1/2) q))) ∧
    (∀ q : ℚ, (1:ℚ)/2 ≤ min 2 (max (1/2) q) ∧ min 2 (max (1/2) q) ≤ 2) ∧
    normalizeSpeed (.val (.fin (7/2))) = some 2 ∧
    normalizeSpeed (.val .nan) = none ∧
    normalizeSpeed (.val .inf) = none ∧
    normalizeSpeed (.val .negInf) = none ∧
    normalizeSpeed .undef = none ∧
    normalizeSpeed .nullv = none ∧
    normalizeSpeed .emptyStr = none ∧
    (∀ env : SpeedRaw, requestedSpeed .undef env = normalizeSpeed env) ∧
    (∀ env : SpeedRaw, requestedSpeed (.val .nan) env = normalizeSpeed env) := by
  refine ⟨fun q => rfl,
    fun q => ⟨le_min (by norm_num) (le_max_left _ _), min_le_left _ _⟩,
    ?_, rfl, rfl, rfl, rfl, rfl, rfl, fun env => rfl, fun env => rfl⟩
  show some (min 2 (max (1/2) (7/2 : ℚ))) = some 2
  norm_num

/-- Claim C10: a non-empty `text` field drives the transcript directly:
the resolved spoken text equals `text`, the text-generation service is
never called and `generate` is ignored; an empty-string `text` behaves
exactly as an absent one. -/
theorem C10_text_overrides_prompt :
    (∀ (t : String) (prompt : Option String) (g : Bool) (o : LlmOut), t ≠ "" →
      resolveSpoken (some t) prompt g o = ([], .ok t)) ∧
    (∀ (prompt : Option String) (g : Bool) (o : LlmOut),
      resolveSpoken (some "") prompt g o = resolveSpoken none prompt g o) := by
  constructor
  · intro t prompt g o ht
    unfold resolveSpoken jsStr
    simp [ht]
  · intro prompt g o
    unfold resolveSpoken jsStr
    simp

/-- Witness for C10 at `text = "hi"`. -/
theorem C10_text_overrides_prompt_witness :
    "hi" ≠ "" ∧ resolveSpoken (some "hi") (some "p") true .fail = ([], .ok "hi") :=
  ⟨by decide, C10_text_overrides_prompt.1 "hi" (some "p") true .fail (by decide)⟩

/-- Claim C8: a spoken text longer than the configured cap is forwarded
as exactly the first `cap` characters plus one truncation marker; text at
or below the cap is forwarded unchanged; and every text sent to the
synthesis upstream by the handler is the capped form of the resolved
spoken text. -/
theorem C8_truncation_cap :
    (∀ (cap : Nat) (s : String), cap < s.length →
      capText cap s = ⟨s.data.take cap⟩ ++ "…" ∧ (capText cap s).length = cap + 1) ∧
    (∀ (cap : Nat) (s : String), s.length ≤ cap → capText cap s = s) ∧
    (∀ (cap : Nat) (req : TtsReq) (env : SpeedRaw) (o : LlmOut) (a1 a2 : UpAttempt)
      (sent : String) (sp : Option ℚ),
      TAct.synthCall sent sp ∈ ttsHandler cap req env o a1 a2 →
      ∃ spoken, sent = capText cap spoken) := by
  refine ⟨fun cap s h => ⟨?_, ?_⟩, fun cap s h => ?_, ?_⟩
  · rw [capText, if_pos h]
  · rw [capText, if_pos h]
    show (s.data.take cap ++ "…".data).length = cap + 1
    rw [List.length_append, List.length_take]
    have hle : cap ≤ s.data.length := le_of_lt h
    have hone : "…".data.length = 1 := rfl
    rw [Nat.min_eq_left hle, hone]
  · rw [capText, if_neg (by omega)]
  · intro cap req env o a1 a2 sent sp h
    unfold ttsHandler at h
    rcases hres : resolveSpoken req.text req.prompt req.generate o with ⟨acts, ro⟩
    rw [hres] at h
    have hacts : acts = [] ∨ acts = [TAct.llmCall] := by
      have := resolveSpoken_acts req.text req.prompt req.generate o
      rw [hres] at this
      exact this
    have hnacts : TAct.synthCall sent sp ∉ acts := by
      rcases hacts with h1 | h1 <;> subst h1 <;> simp
    cases ro with
    | e400 =>
      simp only [List.mem_append] at h
      rcases h with h | h
      · exact absurd h hnacts
      · simp at h
    | e502 =>
      simp only [List.mem_append] at h
      rcases h with h | h
      · exact absurd h hnacts
      · simp at h
    | ok spoken =>
      cases hj : req.json with
      | true =>
        simp only [hj, if_true, List.mem_append] at h
        rcases h with h | h
        · exact absurd h hnacts
        · simp at h
      | false =>
        simp only [hj, Bool.false_eq_true, if_false, List.mem_append] at h
        rcases h with h | h
        · exact absurd h hnacts
        · exact ⟨spoken, (synthCall_in_upstreamPhase _ _ _ _ _ _ _ h).1⟩

/-- Witness for C8: cap 2 truncates "abcd" to "ab…", leaves "ab" alone,
and a concrete handler run sends exactly the capped text upstream. -/
theorem C8_truncation_cap_witness :
    (2 < "abcd".length ∧
      capText 2 "abcd" = ⟨"abcd".data.take 2⟩ ++ "…" ∧ (capText 2 "abcd").length = 3) ∧
    ("ab".length ≤ 2 ∧ capText 2 "ab" = "ab") ∧
    (TAct.synthCall (capText 600 "x") none ∈
      ttsHandler 600 ⟨some "x", none, false, false, false, .undef⟩ .undef .fail
        (.resp ⟨true, none, 5⟩) .abortE ∧
      ∃ spoken, capText 600 "x" = capText 600 spoken) := by
  have hmem : TAct.synthCall (capText 600 "x") none ∈
      ttsHandler 600 ⟨some "x", none, false, false, false, .undef⟩ .undef .fail
        (.resp ⟨true, none, 5⟩) .abortE := by decide
  exact ⟨⟨by decide, (C8_truncation_cap.1 2 "abcd" (by decide)).1,
          (C8_truncation_cap.1 2 "abcd" (by decide)).2⟩,
    ⟨by decide, C8_truncation_cap.2.1 2 "ab" (by decide)⟩,
    ⟨hmem, C8_truncation_cap.2.2 600 _ .undef .fail _ .abortE _ none hmem⟩⟩

/-- Claim C5, counterexample: a request with `json = true` but neither a
usable `text` nor `prompt` is answered with the 400 validation JSON, not
with a 200 transcript body, so the claim does not hold for every request
with the json flag set. -/
theorem C5_counterexample :
    ttsHandler 600 ⟨none, none, false, true, false, .undef⟩ .undef .fail .abortE .abortE =
      [TAct.errJson 400 .validation] := rfl

/-- Claim C5 (amended): for every request with `json = true`, the
synthesis upstream is never called and (in the part_004 variant) the
worker is never spawned; and whenever the transcript resolution succeeds,
the handler returns the 200 `{response: transcript}` body. -/
theorem C5_json_mode :
    ∀ (cap : Nat) (req : TtsReq) (env : SpeedRaw) (o : LlmOut) (a1 a2 : UpAttempt),
      req.json = true →
      (∀ (s : String) (sp : Option ℚ), TAct.synthCall s sp ∉ ttsHandler cap req env o a1 a2) ∧
      (∀ (acts : List TAct) (spoken : String),
        resolveSpoken req.text req.prompt req.generate o = (acts, .ok spoken) →
        ttsHandler cap req env o a1 a2 = acts ++ [TAct.okJson spoken]) ∧
      (∀ (slot stream : Bool) (prompt : Option String) (llm : LlmOut) (events : List WEv),
        Act.spawn ∉ p4v2Handler slot true stream prompt llm events) := by
  intro cap req env o a1 a2 hj
  refine ⟨?_, ?_, ?_⟩
  · intro s sp h
    unfold ttsHandler at h
    rcases hres : resolveSpoken req.text req.prompt req.generate o with ⟨acts, ro⟩
    rw [hres] at h
    have hacts := resolveSpoken_acts req.text req.prompt req.generate o
    rw [hres] at hacts
    have hnacts : TAct.synthCall s sp ∉ acts := by
      rcases hacts with h1 | h1 <;> subst h1 <;> simp
    cases ro with
    | e400 =>
      simp only [List.mem_append] at h
      rcases h with h | h
      · exact absurd h hnacts
      · simp at h
    | e502 =>
      simp only [List.mem_append] at h
      rcases h with h | h
      · exact absurd h hnacts
      · simp at h
    | ok spoken =>
      simp only [hj, if_true, List.mem_append] at h
      rcases h with h | h
      · exact absurd h hnacts
      · simp at h
  · intro acts spoken hres
    unfold ttsHandler
    rw [hres]
    simp only [hj, if_true]
  · intro slot stream prompt llm events
    unfold p4v2Handler
    cases prompt with
    | none => simp
    | some p =>
      by_cases hp : (p.trim == "") = true
      · simp [hp]
      · simp only [Bool.not_eq_true] at hp
        simp only [hp, Bool.false_eq_true, if_false]
        cases llm with
        | fail => cases slot <;> simp
        | okResp r => cases slot <;> simp

/-- Witness for C5 (amended) at a concrete json-only request. -/
theorem C5_json_mode_witness :
    (TtsReq.mk (some "hello") none false true false .undef).json = true ∧
    ((∀ (s : String) (sp : Option ℚ), TAct.synthCall s sp ∉
        ttsHandler 600 (TtsReq.mk (some "hello") none false true false .undef)
          .undef .fail .abortE .abortE) ∧
     (∀ (acts : List TAct) (spoken : String),
        resolveSpoken (TtsReq.mk (some "hello") none false true false .undef).text
          (TtsReq.mk (some "hello") none false true false .undef).prompt
          (TtsReq.mk (some "hello") none false true false .undef).generate .fail =
          (acts, .ok spoken) →
        ttsHandler 600 (TtsReq.mk (some "hello") none false true false .undef)
          .undef .fail .abortE .abortE = acts ++ [TAct.okJson spoken]) ∧
     (∀ (slot stream : Bool) (prompt : Option String) (llm : LlmOut) (events : List WEv),
        Act.spawn ∉ p4v2Handler slot true stream prompt llm events)) :=
  ⟨rfl, C5_json_mode 600 (TtsReq.mk (some "hello") none false true false .undef)
    .undef .fail .abortE .abortE rfl⟩

/-- `afterUpstream` contains no synthesis call and no timeout error. -/
theorem afterUpstream_no_synth_no_timeout (stream : Bool) (r : UpResp) :
    (afterUpstream stream r).countP isSynthCall = 0 ∧
    TAct.errJson 500 .tts ∉ afterUpstream stream r := by
  unfold afterUpstream
  split
  · simp [isSynthCall, List.countP_cons, List.countP_nil]
  · split <;> simp [isSynthCall, List.countP_cons, List.countP_nil]

/-- `afterUpstream` never calls the text-generation service. -/
theorem llmCall_notin_afterUpstream (stream : Bool) (r : UpResp) :
    TAct.llmCall ∉ afterUpstream stream r := by
  unfold afterUpstream
  split
  · simp
  · split <;> simp

/-- The synthesis-upstream phase never calls the text-generation
service: retries there never re-run the Ollama call. -/
theorem llmCall_notin_upstreamPhase (stream : Bool) (sent : String) (sp : Option ℚ)
    (a1 a2 : UpAttempt) : TAct.llmCall ∉ upstreamPhase stream sent sp a1 a2 := by
  unfold upstreamPhase
  cases a1 with
  | resp r =>
    intro h
    rcases List.mem_cons.mp h with h | h
    · simp at h
    · exact llmCall_notin_afterUpstream stream r h
  | failE => simp
  | abortE =>
    intro h
    rcases List.mem_cons.mp h with h | h
    · simp at h
    rcases List.mem_cons.mp h with h | h
    · simp at h
    cases a2 with
    | resp r => exact llmCall_notin_afterUpstream stream r h
    | abortE => simp at h
    | failE => simp at h

/-- Claim C7 (amended): the timeout-with-one-retry discipline belongs to
the synthesis upstream call, not to the text-generation call. The
text-generation (Ollama) fetch is made at most once per request — it has
no timeout and no retry. Once a request reaches the synthesis stage, the
`/speak` upstream call is made once, or exactly twice when the first
attempt times out, and the structured `{stage: 'tts', error: 'timeout'}`
500 JSON is surfaced exactly when both the first attempt and its single
retry time out. The timeout bound itself (`TTS_TIMEOUT_MS`) is
configuration; a timed-out attempt is modelled by the `AbortError`
outcome it produces. -/
theorem C7_timeout_retry :
    (∀ (cap : Nat) (req : TtsReq) (env : SpeedRaw) (o : LlmOut) (a1 a2 : UpAttempt),
      (ttsHandler cap req env o a1 a2).count TAct.llmCall ≤ 1) ∧
    (∀ (cap : Nat) (req : TtsReq) (env : SpeedRaw) (o : LlmOut) (a1 a2 : UpAttempt)
      (acts : List TAct) (spoken : String),
      resolveSpoken req.text req.prompt req.generate o = (acts, .ok spoken) →
      req.json = false →
      ((ttsHandler cap req env o a1 a2).countP isSynthCall =
        if a1 = .abortE then 2 else 1) ∧
      (TAct.errJson 500 .tts ∈ ttsHandler cap req env o a1 a2 ↔
        a1 = .abortE ∧ a2 = .abortE)) := by
  constructor
  · intro cap req env o a1 a2
    unfold ttsHandler
    rcases hres : resolveSpoken req.text req.prompt req.generate o with ⟨acts, ro⟩
    have hacts := resolveSpoken_acts req.text req.prompt req.generate o
    rw [hres] at hacts
    have hc : acts.count TAct.llmCall ≤ 1 := by
      rcases hacts with h | h <;> subst h <;> simp
    cases ro with
    | e400 =>
      show (acts ++ [TAct.errJson 400 .validation]).count TAct.llmCall ≤ 1
      rw [List.count_append]
      have h0 : [TAct.errJson 400 TtsStage.validation].count TAct.llmCall = 0 := by simp
      omega
    | e502 =>
      show (acts ++ [TAct.errJson 502 .ollama]).count TAct.llmCall ≤ 1
      rw [List.count_append]
      have h0 : [TAct.errJson 502 TtsStage.ollama].count TAct.llmCall = 0 := by simp
      omega
    | ok spoken =>
      cases hj : req.json with
      | true =>
        show (acts ++ [TAct.okJson spoken]).count TAct.llmCall ≤ 1
        rw [List.count_append]
        have h0 : [TAct.okJson spoken].count TAct.llmCall = 0 := by simp
        omega
      | false =>
        show (acts ++ upstreamPhase req.stream (capText cap spoken)
          (requestedSpeed req.speed env) a1 a2).count TAct.llmCall ≤ 1
        rw [List.count_append]
        have h0 : (upstreamPhase req.stream (capText cap spoken)
            (requestedSpeed req.speed env) a1 a2).count TAct.llmCall = 0 :=
          List.count_eq_zero.mpr (llmCall_notin_upstreamPhase _ _ _ a1 a2)
        omega
  intro cap req env o a1 a2 acts spoken hres hj
  have hacts := resolveSpoken_acts req.text req.prompt req.generate o
  rw [hres] at hacts
  have hcount0 : acts.countP isSynthCall = 0 := by
    rcases hacts with h1 | h1 <;> subst h1 <;> simp [isSynthCall, List.countP_cons, List.countP_nil]
  have hmem0 : TAct.errJson 500 .tts ∉ acts := by
    rcases hacts with h1 | h1 <;> subst h1 <;> simp
  unfold ttsHandler
  rw [hres]
  simp only [hj, Bool.false_eq_true, if_false]
  rw [List.countP_append, hcount0]
  constructor
  · cases a1 with
    | resp r =>
      simp only [upstreamPhase, List.countP_cons]
      rw [(afterUpstream_no_synth_no_timeout req.stream r).1]
      simp [isSynthCall]
    | failE => simp [upstreamPhase, isSynthCall, List.countP_cons, List.countP_nil]
    | abortE =>
      cases a2 with
      | resp r =>
        simp only [upstreamPhase, List.countP_cons]
        rw [(afterUpstream_no_synth_no_timeout req.stream r).1]
        simp [isSynthCall]
      | abortE => simp [upstreamPhase, isSynthCall, List.countP_cons, List.countP_nil]
      | failE => simp [upstreamPhase, isSynthCall, List.countP_cons, List.countP_nil]
  · constructor
    · intro h
      simp only [List.mem_append] at h
      rcases h with h | h
      · exact absurd h hmem0
      · cases a1 with
        | resp r =>
          rcases List.mem_cons.mp h with h | h
          · exact absurd h (by simp)
          · exact absurd h (afterUpstream_no_synth_no_timeout req.stream r).2
        | failE => simp [upstreamPhase] at h
        | abortE =>
          cases a2 with
          | resp r =>
            rcases List.mem_cons.mp h with h | h
            · exact absurd h (by simp)
            rcases List.mem_cons.mp h with h | h
            · exact absurd h (by simp)
            · exact absurd h (afterUpstream_no_synth_no_timeout req.stream r).2
          | abortE => exact ⟨rfl, rfl⟩
          | failE => simp [upstreamPhase] at h
    · rintro ⟨h1, h2⟩
      subst h1; subst h2
      simp [upstreamPhase]

/-- Witness for C7: with a valid literal text, two timed-out attempts
produce exactly two upstream calls and the timeout JSON. -/
theorem C7_timeout_retry_witness :
    resolveSpoken (TtsReq.mk (some "x") none false false true .undef).text
      (TtsReq.mk (some "x") none false false true .undef).prompt
      (TtsReq.mk (some "x") none false false true .undef).generate .fail = ([], .ok "x") ∧
    (TtsReq.mk (some "x") none false false true .undef).json = false ∧
    (((ttsHandler 600 (TtsReq.mk (some "x") none false false true .undef)
        .undef .fail .abortE .abortE).countP isSynthCall =
      if UpAttempt.abortE = .abortE then 2 else 1) ∧
     (TAct.errJson 500 .tts ∈ ttsHandler 600 (TtsReq.mk (some "x") none false false true .undef)
        .undef .fail .abortE .abortE ↔ UpAttempt.abortE = .abortE ∧ UpAttempt.abortE = .abortE)) :=
  ⟨rfl, rfl, C7_timeout_retry.2 600 (TtsReq.mk (some "x") none false false true .undef)
    .undef .fail .abortE .abortE [] "x" rfl rfl⟩

/-- Claim C7, counterexample: the text-generation (Ollama) call of
routes/tts.js lines 49-71 is a plain `await fetch` with no
AbortController, no timeout and no retry. When that call fails, the
handler has made exactly one text-generation call and immediately
surfaces the 502 `{stage: 'ollama'}` JSON: no second call ever happens
and no `{stage: 'tts', error: 'timeout'}` body is produced, so the
timeout-with-one-retry the claim asserts of the text-generation call
does not hold; the code applies it to the `/speak` synthesis upstream
instead. -/
theorem C7_counterexample :
    ttsHandler 600 ⟨none, some "p", true, false, false, .undef⟩ .undef .fail
      .abortE .abortE = [TAct.llmCall, TAct.errJson 502 .ollama] ∧
    (ttsHandler 600 ⟨none, some "p", true, false, false, .undef⟩ .undef .fail
      .abortE .abortE).count TAct.llmCall = 1 := by
  constructor <;> rfl

/-! ## Worker-trace lemmas -/

/-- Appending a trace that is guarded for every incoming flag preserves
guardedness. -/
theorem commitGuarded_append (ys : List Act) (hy : ∀ c, commitGuarded c ys = true) :
    ∀ (xs : List Act) (b : Bool), commitGuarded b xs = true →
      commitGuarded b (xs ++ ys) = true := by
  intro xs
  induction xs with
  | nil => intro b _; simpa using hy b
  | cons a rest ih =>
    intro b hx
    cases a with
    | validate ok =>
      cases ok with
      | true => exact ih true hx
      | false => exact ih b hx
    | commitAudio =>
      cases b with
      | false =>
        exfalso
        have hx' : (false && commitGuarded false rest) = true := hx
        simp at hx'
      | true =>
        have hx' : (true && commitGuarded true rest) = true := hx
        simp only [Bool.true_and] at hx'
        show (true && commitGuarded true (rest ++ ys)) = true
        simp only [Bool.true_and]
        exact ih true hx'
    | abortCall => exact ih b hx
    | spawn => exact ih b hx
    | write n => exact ih b hx
    | json s t => exact ih b hx
    | okJson r => exact ih b hx
    | trailer => exact ih b hx
    | endRes => exact ih b hx
    | endBuf n => exact ih b hx
    | kill => exact ih b hx

/-- After any data event the first-chunk flag is down. -/
theorem p4v2Data_first (stream : Bool) (s : P4State) (c : List Nat)
    (hs : s.first = false ∨ s.first = true) :
    (p4v2Data stream s c).1.first = false := by
  unfold p4v2Data forwardChunk
  rcases hs with hf | hf
  · simp only [hf, Bool.false_eq_true, if_false]
    split_ifs <;> simp [hf]
  · simp only [hf, if_true]
    split_ifs <;> rfl

/-- Every action list emitted by one part_004 (second variant) data event
is guarded: a `commitAudio` only ever follows the `validate true` of the
same event. -/
theorem p4v2Data_guarded (stream : Bool) (s : P4State) (c : List Nat) (b : Bool) :
    commitGuarded b (p4v2Data stream s c).2 = true := by
  unfold p4v2Data forwardChunk
  split_ifs <;> rfl

/-- The close handler emits no header commit. -/
theorem p4v2Close_guarded (stream : Bool) (s : P4State) (code : Option Int) (b : Bool) :
    commitGuarded b (p4v2Close stream s code) = true := by
  unfold p4v2Close
  split_ifs <;> rfl

/-- The error handler emits no header commit. -/
theorem p4v2ErrAct_guarded (s : P4State) (b : Bool) :
    commitGuarded b (p4v2ErrAct s) = true := by
  unfold p4v2ErrAct
  split_ifs <;> rfl

/-- Whole-run guardedness for the part_004 second-variant worker
callbacks. -/
theorem p4v2Steps_guarded (stream : Bool) (evs : List WEv) :
    ∀ (s : P4State) (b : Bool), commitGuarded b (p4v2Steps stream s evs).2 = true := by
  induction evs with
  | nil => intro s b; rfl
  | cons ev rest ih =>
    intro s b
    cases ev with
    | data c =>
      show commitGuarded b
        ((p4v2Data stream s c).2 ++ (p4v2Steps stream (p4v2Data stream s c).1 rest).2) = true
      exact commitGuarded_append _ (fun c2 => ih _ c2) _ b (p4v2Data_guarded stream s c b)
    | close code =>
      show commitGuarded b
        (p4v2Close stream s code ++ (p4v2Steps stream s rest).2) = true
      exact commitGuarded_append _ (fun c2 => ih _ c2) _ b (p4v2Close_guarded stream s code b)
    | errEv =>
      show commitGuarded b
        (p4v2ErrAct s ++ (p4v2Steps stream s rest).2) = true
      exact commitGuarded_append _ (fun c2 => ih _ c2) _ b (p4v2ErrAct_guarded s b)

/-- Once the first-chunk flag is down, the part_004 second-variant
callbacks never commit audio headers again. -/
theorem p4v2Steps_no_commit (stream : Bool) (evs : List WEv) :
    ∀ s : P4State, s.first = false → Act.commitAudio ∉ (p4v2Steps stream s evs).2 := by
  induction evs with
  | nil => intro s _; simp [p4v2Steps]
  | cons ev rest ih =>
    intro s hs
    cases ev with
    | data c =>
      show Act.commitAudio ∉
        (p4v2Data stream s c).2 ++ (p4v2Steps stream (p4v2Data stream s c).1 rest).2
      have hdata : p4v2Data stream s c = forwardChunk stream s c [] := by
        unfold p4v2Data
        rw [hs]
        rfl
      rw [hdata]
      rw [List.mem_append]
      rintro (h | h)
      · unfold forwardChunk at h
        split_ifs at h <;> simp at h
      · have hfirst : (forwardChunk stream s c []).1.first = false := by
          unfold forwardChunk
          split_ifs <;> simp [hs]
        exact ih _ hfirst h
    | close code =>
      show Act.commitAudio ∉ p4v2Close stream s code ++ (p4v2Steps stream s rest).2
      rw [List.mem_append]
      rintro (h | h)
      · unfold p4v2Close at h
        split_ifs at h <;> simp at h
      · exact ih s hs h
    | errEv =>
      show Act.commitAudio ∉ p4v2ErrAct s ++ (p4v2Steps stream s rest).2
      rw [List.mem_append]
      rintro (h | h)
      · unfold p4v2ErrAct at h
        split_ifs at h <;> simp at h
      · exact ih s hs h

/-- The part_004 second-variant callbacks commit audio headers at most
once per request. -/
theorem p4v2Steps_commit_count (stream : Bool) (evs : List WEv) :
    ∀ s : P4State, (p4v2Steps stream s evs).2.count Act.commitAudio ≤ 1 := by
  induction evs with
  | nil => intro s; simp [p4v2Steps]
  | cons ev rest ih =>
    intro s
    by_cases hs : s.first = false
    · have h0 : Act.commitAudio ∉ (p4v2Steps stream s (ev :: rest)).2 :=
        p4v2Steps_no_commit stream (ev :: rest) s hs
      rw [List.count_eq_zero.mpr h0]
      omega
    · have hs1 : s.first = true := by
        cases h : s.first
        · exact absurd h hs
        · rfl
      cases ev with
      | data c =>
        show ((p4v2Data stream s c).2 ++
          (p4v2Steps stream (p4v2Data stream s c).1 rest).2).count Act.commitAudio ≤ 1
        rw [List.count_append]
        have hfirst : (p4v2Data stream s c).1.first = false :=
          p4v2Data_first stream s c (Or.inr hs1)
        have h0 : (p4v2Steps stream (p4v2Data stream s c).1 rest).2.count Act.commitAudio = 0 :=
          List.count_eq_zero.mpr (p4v2Steps_no_commit stream rest _ hfirst)
        rw [h0]
        have h1 : (p4v2Data stream s c).2.count Act.commitAudio ≤ 1 := by
          unfold p4v2Data forwardChunk
          simp only [hs1, if_true]
          split_ifs <;> simp
        omega
      | close code =>
        show (p4v2Close stream s code ++ (p4v2Steps stream s rest).2).count Act.commitAudio ≤ 1
        rw [List.count_append]
        have h1 : (p4v2Close stream s code).count Act.commitAudio = 0 := by
          unfold p4v2Close
          split_ifs <;> simp
        rw [h1]
        simpa using ih s
      | errEv =>
        show (p4v2ErrAct s ++ (p4v2Steps stream s rest).2).count Act.commitAudio ≤ 1
        rw [List.count_append]
        have h1 : (p4v2ErrAct s).count Act.commitAudio = 0 := by
          unfold p4v2ErrAct
          split_ifs <;> simp
        rw [h1]
        simpa using ih s

/-- Claim C1 (amended): in the part_004 validating handler, the audio
response headers are committed at most once per request, and never
before the first worker chunk has passed the MP3 signature check —
`commitGuarded` requires a `validate true` before any `commitAudio` in
the trace, and this holds both in streaming mode and in the buffered
mode (where the validated-then-buffered payload is only flushed by the
close handler). The routes/llm.js variant instead commits headers at
request start (see the counterexample), so the invariant holds for the
validating handler, not for every handler of the repository. -/
theorem C1_commit_after_validation :
    ∀ (slot json stream : Bool) (prompt : Option String) (llm : LlmOut)
      (events : List WEv),
      commitGuarded false (p4v2Handler slot json stream prompt llm events) = true ∧
      (p4v2Handler slot json stream prompt llm events).count Act.commitAudio ≤ 1 := by
  intro slot json stream prompt llm events
  unfold p4v2Handler
  cases prompt with
  | none => exact ⟨rfl, by simp⟩
  | some p =>
    by_cases hp : (p.trim == "") = true
    · simp only [hp, if_true]
      exact ⟨rfl, by simp⟩
    · simp only [Bool.not_eq_true] at hp
      simp only [hp, Bool.false_eq_true, if_false]
      cases llm with
      | fail =>
        cases slot <;> exact ⟨rfl, by simp⟩
      | okResp r =>
        cases json with
        | true => cases slot <;> exact ⟨rfl, by simp⟩
        | false =>
          cases slot with
          | false =>
            constructor
            · show commitGuarded false
                (Act.spawn :: (p4v2Steps stream p4Init events).2) = true
              exact p4v2Steps_guarded stream events p4Init false
            · show (Act.spawn :: (p4v2Steps stream p4Init events).2).count
                Act.commitAudio ≤ 1
              rw [List.count_cons]
              have := p4v2Steps_commit_count stream events p4Init
              simp only [show (Act.spawn == Act.commitAudio) = false from rfl,
                Bool.false_eq_true, if_false]
              omega
          | true =>
            constructor
            · show commitGuarded false
                (Act.abortCall :: Act.spawn :: (p4v2Steps stream p4Init events).2) = true
              exact p4v2Steps_guarded stream events p4Init false
            · show (Act.abortCall :: Act.spawn ::
                (p4v2Steps stream p4Init events).2).count Act.commitAudio ≤ 1
              rw [List.count_cons, List.count_cons]
              have := p4v2Steps_commit_count stream events p4Init
              simp only [show (Act.spawn == Act.commitAudio) = false from rfl,
                show (Act.abortCall == Act.commitAudio) = false from rfl,
                Bool.false_eq_true, if_false]
              omega

/-- Claim C1, counterexample: the routes/llm.js handler commits the
audio/chunked/trailer headers with `res.writeHead(200, ...)` immediately,
with zero worker chunks received and no signature check ever run, so
"no header is committed before the first audio chunk has passed the MP3
signature check" fails on this route: the whole trace of a run with no
worker output at all is header commit followed by spawn, and it is not
commit-guarded. -/
theorem C1_commit_counterexample :
    llmV1Handler false (some "hi") (.okLines []) [] = [Act.commitAudio, Act.spawn] ∧
    commitGuarded false (llmV1Handler false (some "hi") (.okLines []) []) = false := by
  constructor <;> rfl

/-- The part_004 first-variant worker callbacks never call
`currentSession.abort` — only the request prologue does. -/
theorem p4v1Steps_no_abort (evs : List WEv) :
    ∀ s : P4State, Act.abortCall ∉ (p4v1Steps s evs).2 := by
  induction evs with
  | nil => intro s; simp [p4v1Steps]
  | cons ev rest ih =>
    intro s
    cases ev with
    | data c =>
      show Act.abortCall ∉
        (p4v1Data s c).2 ++ (p4v1Steps (p4v1Data s c).1 rest).2
      rw [List.mem_append]
      rintro (h | h)
      · unfold p4v1Data at h
        split_ifs at h <;> simp at h
      · exact ih _ h
    | close code =>
      show Act.abortCall ∉ p4v1Close false s code ++ (p4v1Steps s rest).2
      rw [List.mem_append]
      rintro (h | h)
      · unfold p4v1Close at h
        split_ifs at h <;> simp at h
      · exact ih s h
    | errEv =>
      show Act.abortCall ∉ p4v1ErrAct false s ++ (p4v1Steps s rest).2
      rw [List.mem_append]
      rintro (h | h)
      · unfold p4v1ErrAct at h
        split_ifs at h <;> simp at h
      · exact ih s h

/-- Claim C2: when a new request arrives while a previous session
occupies the single-session slot, the previous worker's termination
signal (`currentSession.abort()`, the first action of the new request's
trace) strictly precedes the new request's worker spawn, and the
superseded session's close handler — whose worker was killed and hence
closes with a `null` exit code (`killedExitCode`) — never emits the
`X-Transcript` trailer. -/
theorem C2_abort_precedes_spawn :
    (∀ (json : Bool) (prompt : Option String) (llm : LlmS) (events : List WEv)
      (pre post : List Act),
      jsTruthy prompt = true →
      p4v1Handler true json prompt llm events = pre ++ Act.spawn :: post →
      Act.abortCall ∈ pre ∧ Act.abortCall ∉ post) ∧
    (∀ (closed : Bool) (s : P4State),
      Act.trailer ∉ p4v1Close closed s killedExitCode) := by
  constructor
  · intro json prompt llm events pre post hp heq
    have hshape : ∃ rest, p4v1Handler true json prompt llm events = Act.abortCall :: rest ∧
        Act.abortCall ∉ rest := by
      unfold p4v1Handler
      simp only [hp, Bool.not_true, Bool.false_eq_true, if_false]
      cases llm with
      | fail => exact ⟨_, rfl, by simp⟩
      | okLines lines =>
        cases json with
        | true => exact ⟨_, rfl, by simp⟩
        | false =>
          refine ⟨_, rfl, ?_⟩
          intro h
          rcases List.mem_cons.mp h with h | h
          · simp at h
          · exact p4v1Steps_no_abort events p4Init h
    rcases hshape with ⟨rest, hr, hnot⟩
    rw [hr] at heq
    cases pre with
    | nil =>
      exfalso
      have := (List.cons.injEq _ _ _ _).mp heq
      simp at this
    | cons a pre2 =>
      have heq2 := (List.cons.injEq _ _ _ _).mp (by simpa using heq)
      rcases heq2 with ⟨ha, hrest⟩
      constructor
      · rw [← ha]; exact List.mem_cons_self _ _
      · intro hmem
        apply hnot
        rw [hrest]
        exact List.mem_append_right _ (List.mem_cons_of_mem _ hmem)
  · intro closed s
    unfold p4v1Close killedExitCode
    split_ifs <;> simp_all

/-- Witness for C2 at a concrete pair of requests: the second request's
trace starts with the abort of the occupant and spawns afterwards. -/
theorem C2_abort_precedes_spawn_witness :
    jsTruthy (some "hi") = true ∧
    p4v1Handler true false (some "hi") (.okLines []) [] =
      [Act.abortCall] ++ Act.spawn :: [] ∧
    (Act.abortCall ∈ [Act.abortCall] ∧ Act.abortCall ∉ ([] : List Act)) ∧
    Act.trailer ∉ p4v1Close false p4Init killedExitCode := by
  refine ⟨by decide, by decide, ?_, C2_abort_precedes_spawn.2 false p4Init⟩
  exact C2_abort_precedes_spawn.1 false (some "hi") (.okLines []) []
    [Act.abortCall] [] (by decide) (by decide)

/-- Claim C3: when the first worker chunk fails the MP3 signature check
(for example a chunk starting `0x00 0x00`), the worker is killed, no
audio byte that was read is ever delivered to the client, the audio
response headers are never committed, and the response the client
receives is the structured 500 `FormatError` JSON body (the error JSON
itself of course carries its own error headers). -/
theorem C3_invalid_first_chunk :
    ∀ (stream : Bool) (c : List Nat) (rest : List WEv),
      isMp3Like c = false →
      Act.kill ∈ (p4v2Steps stream p4Init (.data c :: rest)).2 ∧
      deliveredBytes (p4v2Steps stream p4Init (.data c :: rest)).2 = 0 ∧
      Act.commitAudio ∉ (p4v2Steps stream p4Init (.data c :: rest)).2 ∧
      (p4v2Steps stream p4Init (.data c :: rest)).2.find? isResponseAct =
        some (Act.json 500 .formatErr) := by
  intro stream c rest hc
  have hdata : p4v2Data stream p4Init c =
      (⟨false, true, 0, 0⟩, [Act.validate false, Act.kill, Act.json 500 .formatErr]) := by
    unfold p4v2Data p4Init
    simp [hc]
  have htr : (p4v2Steps stream p4Init (.data c :: rest)).2 =
      Act.validate false :: Act.kill :: Act.json 500 .formatErr ::
        (p4v2Steps stream (⟨false, true, 0, 0⟩ : P4State) rest).2 := by
    show (p4v2Data stream p4Init c).2 ++
      (p4v2Steps stream (p4v2Data stream p4Init c).1 rest).2 = _
    rw [hdata]
    rfl
  rw [htr]
  refine ⟨by simp, rfl, ?_, rfl⟩
  intro h
  simp only [List.mem_cons] at h
  rcases h with h | h | h | h
  · simp at h
  · simp at h
  · simp at h
  · exact p4v2Steps_no_commit stream rest _ rfl h

/-- Witness for C3 with the chunk `0x00 0x00` from the spec example. -/
theorem C3_invalid_first_chunk_witness :
    isMp3Like [0, 0] = false ∧
    (Act.kill ∈ (p4v2Steps true p4Init (.data [0, 0] :: [])).2 ∧
     deliveredBytes (p4v2Steps true p4Init (.data [0, 0] :: [])).2 = 0 ∧
     Act.commitAudio ∉ (p4v2Steps true p4Init (.data [0, 0] :: [])).2 ∧
     (p4v2Steps true p4Init (.data [0, 0] :: [])).2.find? isResponseAct =
       some (Act.json 500 .formatErr)) :=
  ⟨by decide, C3_invalid_first_chunk true [0, 0] [] (by decide)⟩

/-- The data-event phase of a run never emits a trailer; only the close
handler can. -/
theorem p4v2_dataSteps_no_trailer (stream : Bool) (datas : List (List Nat)) :
    ∀ s : P4State, Act.trailer ∉ (p4v2Steps stream s (datas.map WEv.data)).2 := by
  induction datas with
  | nil => intro s; simp [p4v2Steps]
  | cons c datas ih =>
    intro s
    show Act.trailer ∉ (p4v2Data stream s c).2 ++
      (p4v2Steps stream (p4v2Data stream s c).1 (datas.map WEv.data)).2
    rw [List.mem_append]
    rintro (h | h)
    · unfold p4v2Data forwardChunk at h
      split_ifs at h <;> simp at h
    · exact ih _ h

/-- Claim C4: a worker that closes with exit status 0 but zero audio
bytes is reported as a `SynthesisError` — the 500 JSON when headers are
uncommitted, a bare stream termination otherwise — and never a success
trailer; conversely a trailer is only ever emitted when the exit status
is 0 and the forwarded audio byte count is positive. -/
theorem C4_zero_bytes_synthesis_error :
    ∀ (stream : Bool) (datas : List (List Nat)) (code : Option Int)
      (s : P4State) (acts : List Act),
      p4v2Steps stream p4Init (datas.map WEv.data) = (s, acts) →
      (code = some 0 → s.audioBytes = 0 →
        (s.headersSent = false →
          acts ++ p4v2Close stream s code = acts ++ [Act.json 500 .synthErr]) ∧
        (s.headersSent = true →
          acts ++ p4v2Close stream s code = acts ++ [Act.endRes]) ∧
        Act.trailer ∉ acts ++ p4v2Close stream s code) ∧
      (Act.trailer ∈ acts ++ p4v2Close stream s code →
        code = some 0 ∧ 0 < s.audioBytes) := by
  intro stream datas code s acts hsteps
  have hacts : acts = (p4v2Steps stream p4Init (datas.map WEv.data)).2 := by rw [hsteps]
  have hnt : Act.trailer ∉ acts := by
    rw [hacts]; exact p4v2_dataSteps_no_trailer stream datas p4Init
  constructor
  · intro hc hab
    have hclose : p4v2Close stream s code =
        if !s.headersSent then [Act.json 500 .synthErr] else [Act.endRes] := by
      unfold p4v2Close
      rw [hc, hab]
      rfl
    refine ⟨fun hh => ?_, fun hh => ?_, ?_⟩
    · rw [hclose, hh]; rfl
    · rw [hclose, hh]; rfl
    · rw [List.mem_append]
      rintro (h | h)
      · exact hnt h
      · rw [hclose] at h
        split_ifs at h <;> simp at h
  · intro h
    rw [List.mem_append] at h
    rcases h with h | h
    · exact absurd h hnt
    · unfold p4v2Close at h
      by_cases hcond : (code == some 0 && s.audioBytes != 0) = true
      · rw [Bool.and_eq_true] at hcond
        rcases hcond with ⟨h1, h2⟩
        refine ⟨eq_of_beq h1, ?_⟩
        have : s.audioBytes ≠ 0 := by
          intro h0
          rw [h0] at h2
          simp at h2
        omega
      · rw [if_neg (by simpa using hcond)] at h
        split_ifs at h <;> simp at h

/-- Witness for C4: an empty run closing with exit code 0. -/
theorem C4_zero_bytes_synthesis_error_witness :
    p4v2Steps true p4Init (([] : List (List Nat)).map WEv.data) = (p4Init, []) ∧
    p4Init.audioBytes = 0 ∧ p4Init.headersSent = false ∧
    ([] : List Act) ++ p4v2Close true p4Init (some 0) =
      ([] : List Act) ++ [Act.json 500 .synthErr] ∧
    Act.trailer ∉ ([] : List Act) ++ p4v2Close true p4Init (some 0) := by
  refine ⟨rfl, rfl, rfl, ?_, ?_⟩
  · exact ((C4_zero_bytes_synthesis_error true [] (some 0) p4Init [] rfl).1 rfl rfl).1 rfl
  · exact ((C4_zero_bytes_synthesis_error true [] (some 0) p4Init [] rfl).1 rfl rfl).2.2
